import Mathlib

/-!
A shallow embedding of the tab router in `src/routers/TabRouter.js`: the
router factory, the action dispatcher `getStateForAction` and the path
codec `getPathAndParamsForState` / `getActionForPathAndParams`.

JavaScript reference identity is modelled by value identity: the source
only tests a route, route list or state with strict inequality after
building fresh objects, so an unchanged substructure is exactly one that
is equal as a value here.  Nested navigation state stored inside a
navigator tab's route is opaque to the tab router — it is only handed to
the opaque child router functions and compared for identity — so it is
modelled by a type parameter `σ` with decidable equality.  Child routers
themselves are records of functions, mirroring the polymorphic router
contract.
-/

namespace TabRouter

/-- Modelled from the spec: the action-type tag for the synthesized init
action of the external `NavigationActions` module. -/
def INIT : String := "Navigation/INIT"

/-- Modelled from the spec: the BACK action-type tag of the external
`NavigationActions` module. -/
def BACK : String := "Navigation/BACK"

/-- Modelled from the spec: the NAVIGATE action-type tag of the external
`NavigationActions` module. -/
def NAVIGATE : String := "Navigation/NAVIGATE"

/-- Query parameters: an opaque string-keyed mapping. -/
abbrev Params := List (String × String)

/-- A navigation action: a tagged record over type, key, routeName, a
nested action for delegation to a child router, and params. -/
inductive NavigationAction : Type where
  | mk (type : String) (key : Option String) (routeName : Option String)
      (action : Option NavigationAction) (params : Option Params)

/-- The action-type tag of a navigation action. -/
def NavigationAction.type : NavigationAction → String
  | .mk t _ _ _ _ => t

/-- The optional key of a navigation action. -/
def NavigationAction.key : NavigationAction → Option String
  | .mk _ k _ _ _ => k

/-- The optional routeName of a navigation action. -/
def NavigationAction.routeName : NavigationAction → Option String
  | .mk _ _ r _ _ => r

/-- The optional nested action of a navigation action. -/
def NavigationAction.action : NavigationAction → Option NavigationAction
  | .mk _ _ _ a _ => a

/-- The optional params of a navigation action. -/
def NavigationAction.params : NavigationAction → Option Params
  | .mk _ _ _ _ p => p

/-- Overwrite the nested action field, as the decoder's assignment to
`action.action` does. -/
def NavigationAction.setAction : NavigationAction → Option NavigationAction → NavigationAction
  | .mk t k r _ p, a => .mk t k r a p

/-- Overwrite the params field, as the decoder's assignment to
`action.params` does. -/
def NavigationAction.setParams : NavigationAction → Option Params → NavigationAction
  | .mk t k r a _, p => .mk t k r a p

/-- Modelled from the spec: `NavigationActions.init()` builds a plain
init action. -/
def initAction : NavigationAction := .mk INIT none none none none

/-- Modelled from the spec: `NavigationActions.navigate` builds a plain
navigate action carrying only a routeName. -/
def navigateTo (routeName : String) : NavigationAction :=
  .mk NAVIGATE none (some routeName) none none

/-- A route: key, routeName, optional params, and — for a navigator
tab — the child router's own embedded navigation state, opaque here. -/
structure Route (σ : Type) where
  key : String
  routeName : String
  params : Option Params := none
  child : Option σ := none
deriving DecidableEq

/-- A navigation state: an index into an ordered route list. -/
structure NavigationState (σ : Type) where
  index : Nat
  routes : List (Route σ)
deriving DecidableEq

/-- Result of the path encoder. -/
structure PathAndParams where
  path : String
  params : Option Params
deriving DecidableEq

/-- The polymorphic child-router capability: the subset of the router
contract that `TabRouter.js` invokes on a tab's nested router. -/
structure ChildRouter (σ : Type) where
  getStateForAction : NavigationAction → Option (Route σ) → Option (Route σ)
  getPathAndParamsForState : Route σ → PathAndParams
  getActionForPathAndParams : String → Option Params → Option NavigationAction

/-- The closed-over routing table the factory computes once (lines 33-47
of the source). -/
structure RouterTable (σ : Type) where
  order : List String
  paths : String → String
  initialRouteIndex : Nat
  shouldBackNavigateToInitialRoute : Bool
  tabRouters : String → Option (ChildRouter σ)

/-- A screen capability token; it may expose a nested router. -/
structure ScreenToken (σ : Type) where
  router : Option (ChildRouter σ) := none

/-- One entry of the route-config map: an optional path string and an
optional screen. -/
structure RouteConfig (σ : Type) where
  path : Option String := none
  screen : Option (ScreenToken σ) := none

/-- The route-config map; list order is the key-insertion order that
`Object.keys` reads back. -/
abbrev RouteConfigs (σ : Type) := List (String × RouteConfig σ)

/-- The router config object (`NavigationTabRouterConfig`). -/
structure TabConfig where
  order : Option (List String) := none
  paths : Option (List (String × String)) := none
  initialRouteName : Option String := none
  backBehavior : Option String := none

/-- `Array.prototype.indexOf` / the first-match index search the
dispatcher runs with `order.find`. -/
def jsIndexOf (target : String) : List String → Option Nat
  | [] => none
  | x :: rest => if x = target then some 0 else (jsIndexOf target rest).map (· + 1)

/-- Pair each element with its position, as the callback index argument
of `order.find` / `order.forEach` sees it. -/
def enumFrom (i : Nat) : List String → List (Nat × String)
  | [] => []
  | x :: rest => (i, x) :: enumFrom (i + 1) rest

/-- JavaScript object property read on a string-keyed map: the value of
the first entry carrying the key, if any. -/
def lookupEntry {α : Type} : List (String × α) → String → Option α
  | [], _ => none
  | p :: rest, k => if p.1 == k then some p.2 else lookupEntry rest k

/-- JavaScript object property assignment on a string-keyed map. -/
def setEntry (m : List (String × String)) (k v : String) : List (String × String) :=
  if m.any (fun p => p.1 == k) then m.map (fun p => if p.1 == k then (k, v) else p)
  else m ++ [(k, v)]

/-- `String.prototype.split` on a slash, character by character. -/
def splitCharsAux : List Char → List Char → List (List Char)
  | [], acc => [acc.reverse]
  | c :: rest, acc =>
    if c = '/' then acc.reverse :: splitCharsAux rest [] else splitCharsAux rest (c :: acc)

/-- `path.split('/')`. -/
def jsSplit (s : String) : List String :=
  (splitCharsAux s.toList []).map (fun cs => String.mk cs)

/-- `parts.join('/')`. -/
def jsJoin : List String → String
  | [] => ""
  | [s] => s
  | s :: rest => s ++ "/" ++ jsJoin rest

/-- Object-spread merge of two params maps; entries of the second
override entries of the first (key order is not modelled). -/
def mergeParams (base extra : Params) : Params :=
  base.filter (fun p => !(extra.any (fun q => q.1 == p.1))) ++ extra

/-- Default backBehavior string. -/
def initialRouteBehavior : String := "initialRoute"

/-- Line 33: `config.order || Object.keys(routeConfigs)`. -/
def computeOrder {σ : Type} (routeConfigs : RouteConfigs σ) (config : TabConfig) : List String :=
  config.order.getD (routeConfigs.map Prod.fst)

/-- Line 42: the path segment registered for a tab — the configured
path whenever it is a string (the empty string included), else the
routeName. -/
def pathSegment {σ : Type} (routeConfig : RouteConfig σ) (routeName : String) : String :=
  match routeConfig.path with
  | some p => p
  | none => routeName

/-- One step of the factory's forEach over order (line 42): register the
tab's path segment, overwriting any caller-supplied entry.  A routeName
missing from the config map makes the source throw; here the entry is
skipped and `makeTable` refuses such inputs. -/
def pathsStep {σ : Type} (routeConfigs : RouteConfigs σ) (acc : List (String × String))
    (routeName : String) : List (String × String) :=
  match lookupEntry routeConfigs routeName with
  | some routeConfig => setEntry acc routeName (pathSegment routeConfig routeName)
  | none => acc

/-- Lines 34-47: the paths object after the factory's forEach wrote the
segment of every tab in order over the caller-supplied `config.paths`. -/
def computePaths {σ : Type} (routeConfigs : RouteConfigs σ) (config : TabConfig) :
    List (String × String) :=
  (computeOrder routeConfigs config).foldl (pathsStep routeConfigs) (config.paths.getD [])

/-- Lines 44-46: the nested router of a tab's screen, when both exist. -/
def screenRouter {σ : Type} (routeConfig : RouteConfig σ) : Option (ChildRouter σ) :=
  routeConfig.screen.bind (fun s => s.router)

/-- Lines 26-53: the router factory.  Returns none exactly when the
source throws: a tab of order missing from the config map, or an
initialRouteName (default `order[0]`) absent from order.  The external
`validateRouteConfigMap` is a structural check subsumed by the types. -/
def makeTable {σ : Type} (routeConfigs : RouteConfigs σ) (config : TabConfig) :
    Option (RouterTable σ) :=
  let order := computeOrder routeConfigs config
  if order.all (fun n => (lookupEntry routeConfigs n).isSome) then
    let pathsMap := computePaths routeConfigs config
    let initialRouteName? :=
      match config.initialRouteName with
      | some n => some n
      | none => order.head?
    match initialRouteName?.bind (fun n => jsIndexOf n order) with
    | some idx =>
      some
        { order := order
          paths := fun n => (lookupEntry pathsMap n).getD n
          initialRouteIndex := idx
          shouldBackNavigateToInitialRoute :=
            config.backBehavior.getD initialRouteBehavior == initialRouteBehavior
          tabRouters := fun n =>
            if order.contains n then (lookupEntry routeConfigs n).bind screenRouter else none }
    | none => none
  else none

/-- Lines 63-72: one default route — the child router's init result
spread-merged under a forced key and routeName for a navigator tab, a
bare key/routeName pair for a leaf tab (spreading a null child result
also leaves just the pair). -/
def initTabRoute {σ : Type} (childResult : Option (Route σ)) (routeName : String) : Route σ :=
  match childResult with
  | some r => { r with key := routeName, routeName := routeName }
  | none => { key := routeName, routeName := routeName }

/-- Lines 58-79: the default state built when no input state exists. -/
def materialize {σ : Type} (T : RouterTable σ) (action : NavigationAction) :
    NavigationState σ :=
  { index := T.initialRouteIndex
    routes := T.order.map (fun routeName =>
      match T.tabRouters routeName with
      | some tabRouter =>
          initTabRoute (tabRouter.getStateForAction (action.action.getD initAction) none) routeName
      | none => { key := routeName, routeName := routeName }) }

/-- Lines 58-79: the state the dispatcher works on — the input state if
supplied, else the freshly materialized default. -/
def resolveState {σ : Type} (T : RouterTable σ) (action : NavigationAction)
    (inputState : Option (NavigationState σ)) : NavigationState σ :=
  match inputState with
  | some s => s
  | none => materialize T action

/-- Lines 81-97: active-tab-first delegation.  `some r` is an early
return with result `r`; `none` falls through to the tab-change logic. -/
def activeTabStep {σ : Type} [DecidableEq σ] (T : RouterTable σ) (action : NavigationAction)
    (inputSupplied : Bool) (state : NavigationState σ) :
    Option (Option (NavigationState σ)) :=
  match (T.order.get? state.index).bind T.tabRouters with
  | none => none
  | some activeTabRouter =>
    let activeTabLastState := state.routes.get? state.index
    let activeTabState :=
      activeTabRouter.getStateForAction (action.action.getD action) activeTabLastState
    if activeTabState.isNone && inputSupplied then some none
    else
      match activeTabState with
      | some r =>
        if some r ≠ activeTabLastState then
          some (some { state with routes := state.routes.set state.index r })
        else none
      | none => none

/-- Lines 101-105: the BACK-eligibility check and the candidate index it
produces under the initialRoute back behavior. -/
def backTargetIndex {σ : Type} (T : RouterTable σ) (action : NavigationAction)
    (state : NavigationState σ) : Nat :=
  let activeTabLastState := state.routes.get? state.index
  let isBackEligible :=
    match action.key with
    | none => true
    | some k => activeTabLastState.map Route.key == some k
  if action.type == BACK && isBackEligible && T.shouldBackNavigateToInitialRoute then
    T.initialRouteIndex
  else state.index

/-- Lines 107-115: the first position of `action.routeName` in order —
the index the find callback assigns to `activeTabIndex` — when the
action is a NAVIGATE that names an existing tab. -/
def navigateIndex {σ : Type} (T : RouterTable σ) (action : NavigationAction) : Option Nat :=
  if action.type == NAVIGATE then
    match action.routeName with
    | some rn => jsIndexOf rn T.order
    | none => none
  else none

/-- Line 109: the value `order.find(...)` itself produces — the first
route name of order equal to `action.routeName`, for a NAVIGATE
action. -/
def navigateFoundName {σ : Type} (T : RouterTable σ) (action : NavigationAction) :
    Option String :=
  if action.type == NAVIGATE then
    match action.routeName with
    | some rn => T.order.find? (fun tabId => tabId == rn)
    | none => none
  else none

/-- JS `!!` truthiness of a find result: undefined and the empty string
are falsy.  `didNavigate` is this coercion of the matched route name,
so a matched empty-string tab name leaves it false even though the
candidate index was already assigned. -/
def jsTruthy : Option String → Bool
  | none => false
  | some s => !(s == "")

/-- Lines 146-167: the broadcast search over the enumerated order.  The
first tab other than the skipped active index whose child result is
falsy (keeping the stored routes), or referentially different from the
stored route (splicing it in), wins. -/
def broadcastFind {σ : Type} [DecidableEq σ] (T : RouterTable σ) (action : NavigationAction)
    (routes : List (Route σ)) (skip : Nat) :
    List (Nat × String) → Option (Nat × List (Route σ))
  | [] => none
  | (i, tabId) :: rest =>
    if i = skip then broadcastFind T action routes skip rest
    else
      let tabState :=
        match T.tabRouters tabId with
        | some tabRouter => tabRouter.getStateForAction action (routes.get? i)
        | none => routes.get? i
      match tabState with
      | none => some (i, routes)
      | some t =>
        if some t ≠ routes.get? i then some (i, routes.set i t)
        else broadcastFind T action routes skip rest

/-- Lines 143-177: broadcast to the other tabs, then the stable-result
rule — a state differing in index or routes is rebuilt, otherwise the
original state is returned unchanged. -/
def broadcastStep {σ : Type} [DecidableEq σ] (T : RouterTable σ) (action : NavigationAction)
    (state : NavigationState σ) : NavigationState σ :=
  match broadcastFind T action state.routes state.index (enumFrom 0 T.order) with
  | some (i, rs) =>
    if i ≠ state.index ∨ rs ≠ state.routes then { state with index := i, routes := rs }
    else state
  | none => state

/-- Lines 116-128: the navigate-with-payload early return.  Guarded by
`didNavigate`, the JS truthiness of the matched route name; the index
used is the candidate the find callback assigned. -/
def navigatePayload {σ : Type} [DecidableEq σ] (T : RouterTable σ) (action : NavigationAction)
    (didNavigate : Bool) (activeTabIndex : Nat) (state : NavigationState σ) :
    Option (NavigationState σ) :=
  if didNavigate then
    match action.action with
    | some nestedAction =>
      (match action.routeName.bind T.tabRouters with
       | some tabRouter =>
         (match tabRouter.getStateForAction nestedAction
             (state.routes.get? activeTabIndex) with
          | some newChildState =>
            if some newChildState ≠ state.routes.get? activeTabIndex then
              some { state with
                routes := state.routes.set activeTabIndex newChildState
                index := activeTabIndex }
            else none
          | none => none)
       | none => none)
    | none => none
  else none

/-- Lines 99-177: everything after the active tab declined — back
eligibility, navigate resolution (`didNavigate` being the source's
`!!order.find(...)` coercion of the matched name) with its
nested-action payload, tab switch, the navigate no-op rule, and the
broadcast fallback. -/
def afterActiveStep {σ : Type} [DecidableEq σ] (T : RouterTable σ) (action : NavigationAction)
    (inputSupplied : Bool) (state : NavigationState σ) : Option (NavigationState σ) :=
  let found? := navigateIndex T action
  let didNavigate := jsTruthy (navigateFoundName T action)
  let activeTabIndex := found?.getD (backTargetIndex T action state)
  match navigatePayload T action didNavigate activeTabIndex state with
  | some s => some s
  | none =>
    if activeTabIndex ≠ state.index then some { state with index := activeTabIndex }
    else if didNavigate && !inputSupplied then some state
    else if didNavigate then none
    else some (broadcastStep T action state)

/-- Modelled from the spec: `NavigationActions.mapDeprecatedActionAndWarn`
rewrites deprecated action shapes to their canonical form; the embedded
action type holds only canonical shapes, so it is the identity. -/
def mapDeprecatedActionAndWarn (a : NavigationAction) : NavigationAction := a

/-- Lines 54-178: the action dispatcher. -/
def getStateForAction {σ : Type} [DecidableEq σ] (T : RouterTable σ)
    (action0 : NavigationAction) (inputState : Option (NavigationState σ)) :
    Option (NavigationState σ) :=
  let action := mapDeprecatedActionAndWarn action0
  let state := resolveState T action inputState
  match activeTabStep T action inputState.isSome state with
  | some result => result
  | none => afterActiveStep T action inputState.isSome state

/-- Lines 198-216: the path encoder.  The external `getScreenForRouteName`
resolves the screen whose router line 205 reads; that router is the same
child router the factory registered, so the table's lookup is used.  A
state whose index resolves no route throws in the source and is out of
the modelled domain. -/
def getPathAndParamsForState {σ : Type} (T : RouterTable σ) (state : NavigationState σ) :
    PathAndParams :=
  match state.routes.get? state.index, T.order.get? state.index with
  | some route, some routeName =>
    let subPath := T.paths routeName
    (match T.tabRouters routeName with
     | some childRouter =>
       let child := childRouter.getPathAndParamsForState route
       { path := if subPath ≠ "" then subPath ++ "/" ++ child.path else child.path
         params :=
           match child.params with
           | some cp => some (mergeParams (route.params.getD []) cp)
           | none => route.params }
     | none => { path := subPath, params := route.params })
  | _, _ => { path := "", params := none }

/-- Lines 223-243: the path decoder — first the tab whose segment equals
the first path component, then every navigator tab's child decoder on
the raw path, else null. -/
def getActionForPathAndParams {σ : Type} (T : RouterTable σ) (path : String)
    (params : Option Params) : Option NavigationAction :=
  let firstPass :=
    T.order.findSome? (fun tabId =>
      let parts := jsSplit path
      let pathToTest := T.paths tabId
      if parts.headD "" == pathToTest then
        let act := navigateTo tabId
        match T.tabRouters tabId with
        | some tabRouter =>
          some (act.setAction (tabRouter.getActionForPathAndParams (jsJoin (parts.drop 1)) params))
        | none =>
          match params with
          | some p => some (act.setParams (some p))
          | none => some act
      else none)
  match firstPass with
  | some a => some a
  | none =>
    T.order.findSome? (fun tabId =>
      (T.tabRouters tabId).bind (fun tabRouter => tabRouter.getActionForPathAndParams path params))

/-! ### Basic facts about the list helpers -/

theorem jsIndexOf_lt_length {target : String} :
    ∀ {l : List String} {i : Nat}, jsIndexOf target l = some i → i < l.length := by
  intro l
  induction l with
  | nil => intro i h; simp [jsIndexOf] at h
  | cons x rest ih =>
    intro i h
    by_cases hx : x = target
    · simp [jsIndexOf, hx] at h
      simp only [List.length_cons]
      omega
    · simp only [jsIndexOf, if_neg hx, Option.map_eq_some'] at h
      obtain ⟨j, hj, rfl⟩ := h
      simpa using Nat.succ_lt_succ (ih hj)

theorem jsIndexOf_get? {target : String} :
    ∀ {l : List String} {i : Nat}, jsIndexOf target l = some i → l.get? i = some target := by
  intro l
  induction l with
  | nil => intro i h; simp [jsIndexOf] at h
  | cons x rest ih =>
    intro i h
    by_cases hx : x = target
    · simp [jsIndexOf, hx] at h
      simp [← h, hx]
    · simp only [jsIndexOf, if_neg hx, Option.map_eq_some'] at h
      obtain ⟨j, hj, rfl⟩ := h
      simpa using ih hj

theorem mem_enumFrom {x : String} :
    ∀ {l : List String} {k i : Nat}, (i, x) ∈ enumFrom k l →
      k ≤ i ∧ l.get? (i - k) = some x := by
  intro l
  induction l with
  | nil => intro k i h; simp [enumFrom] at h
  | cons y rest ih =>
    intro k i h
    rcases List.mem_cons.mp h with heq | htail
    · obtain ⟨rfl, rfl⟩ := Prod.mk.injEq .. ▸ And.intro (congrArg Prod.fst heq) (congrArg Prod.snd heq)
      exact ⟨Nat.le_refl _, by simp⟩
    · obtain ⟨hle, hget⟩ := ih htail
      refine ⟨Nat.le_of_succ_le hle, ?_⟩
      have : i - k = (i - (k + 1)) + 1 := by omega
      rw [this]
      simpa using hget

/-! ### The broadcast search -/

/-- A tab declines a broadcast: its child result is the stored route
itself and that stored route exists (is truthy). -/
def declinesAt {σ : Type} [DecidableEq σ] (T : RouterTable σ) (action : NavigationAction)
    (routes : List (Route σ)) (i : Nat) (tabId : String) : Prop :=
  (match T.tabRouters tabId with
   | some tabRouter => tabRouter.getStateForAction action (routes.get? i)
   | none => routes.get? i) = routes.get? i ∧ (routes.get? i).isSome

theorem broadcastFind_of_declines {σ : Type} [DecidableEq σ] {T : RouterTable σ}
    {action : NavigationAction} {routes : List (Route σ)} {skip : Nat} :
    ∀ {l : List (Nat × String)},
      (∀ p ∈ l, p.1 ≠ skip → declinesAt T action routes p.1 p.2) →
      broadcastFind T action routes skip l = none := by
  intro l
  induction l with
  | nil => intro _; rfl
  | cons p rest ih =>
    intro h
    obtain ⟨i, tabId⟩ := p
    by_cases hskip : i = skip
    · simp only [broadcastFind, if_pos hskip]
      exact ih (fun q hq => h q (List.mem_cons_of_mem _ hq))
    · obtain ⟨heq, hsome⟩ := h (i, tabId) (List.mem_cons_self _ _) hskip
      obtain ⟨r, hr⟩ := Option.isSome_iff_exists.mp hsome
      rw [hr] at heq
      simp only [broadcastFind, if_neg hskip, hr, heq]
      simpa using ih (fun q hq => h q (List.mem_cons_of_mem _ hq))

theorem broadcastFind_first_none {σ : Type} [DecidableEq σ] {T : RouterTable σ}
    {action : NavigationAction} {routes : List (Route σ)} {skip : Nat}
    {j : Nat} {tabJ : String} {l2 : List (Nat × String)} :
    ∀ {l1 : List (Nat × String)},
      (∀ p ∈ l1, p.1 ≠ skip → declinesAt T action routes p.1 p.2) →
      j ≠ skip →
      (match T.tabRouters tabJ with
       | some tabRouter => tabRouter.getStateForAction action (routes.get? j)
       | none => routes.get? j) = none →
      broadcastFind T action routes skip (l1 ++ (j, tabJ) :: l2) = some (j, routes) := by
  intro l1
  induction l1 with
  | nil =>
    intro _ hj hfalsy
    simp only [List.nil_append, broadcastFind, if_neg hj, hfalsy]
  | cons p rest ih =>
    intro h hj hfalsy
    obtain ⟨i, tabId⟩ := p
    by_cases hskip : i = skip
    · simp only [List.cons_append, broadcastFind, if_pos hskip]
      exact ih (fun q hq hq' => h q (List.mem_cons_of_mem _ hq) hq') hj hfalsy
    · obtain ⟨heq, hsome⟩ := h (i, tabId) (List.mem_cons_self _ _) hskip
      obtain ⟨r, hr⟩ := Option.isSome_iff_exists.mp hsome
      rw [hr] at heq
      simp only [List.cons_append, broadcastFind, if_neg hskip, hr, heq]
      simpa using ih (fun q hq hq' => h q (List.mem_cons_of_mem _ hq) hq') hj hfalsy

/-! ### Extracting the factory's routing table -/

theorem makeTable_fields {σ : Type} {rc : RouteConfigs σ} {cfg : TabConfig}
    {T : RouterTable σ} (h : makeTable rc cfg = some T) :
    T.order = computeOrder rc cfg ∧
    T.paths = (fun n => (lookupEntry (computePaths rc cfg) n).getD n) ∧
    T.tabRouters = (fun n =>
      if (computeOrder rc cfg).contains n then (lookupEntry rc n).bind screenRouter else none) ∧
    T.initialRouteIndex < (computeOrder rc cfg).length ∧
    (∀ n ∈ computeOrder rc cfg, (lookupEntry rc n).isSome) := by
  unfold makeTable at h
  by_cases hall : (computeOrder rc cfg).all (fun n => (lookupEntry rc n).isSome) = true
  · simp only [hall, if_true] at h
    rcases hidx : (match cfg.initialRouteName with
        | some n => some n
        | none => (computeOrder rc cfg).head?).bind
          (fun n => jsIndexOf n (computeOrder rc cfg)) with _ | idx
    · rw [hidx] at h
      simp at h
    · rw [hidx] at h
      obtain ⟨n0, hn0, hfound⟩ := Option.bind_eq_some.mp hidx
      injection h with h
      subst h
      refine ⟨rfl, rfl, rfl, jsIndexOf_lt_length hfound, ?_⟩
      intro n hn
      exact List.all_eq_true.mp hall n hn
  · simp only [if_neg hall] at h
    simp at h

theorem get?_some_lt {α : Type} {l : List α} {i : Nat} {a : α} (h : l.get? i = some a) :
    i < l.length := by
  simp only [List.get?_eq_getElem?] at h
  exact (List.getElem?_eq_some.mp h).1

theorem lt_get?_isSome {α : Type} {l : List α} {i : Nat} (h : i < l.length) :
    (l.get? i).isSome := by
  simp [List.get?_eq_getElem?, List.getElem?_eq_getElem h]

/-! ### Step lemmas for the dispatcher -/

theorem activeTabStep_of_leaf {σ : Type} [DecidableEq σ] {T : RouterTable σ}
    {action : NavigationAction} {b : Bool} {state : NavigationState σ}
    (h : (T.order.get? state.index).bind T.tabRouters = none) :
    activeTabStep T action b state = none := by
  simp only [activeTabStep, h]

theorem activeTabStep_of_same {σ : Type} [DecidableEq σ] {T : RouterTable σ}
    {action : NavigationAction} {b : Bool} {state : NavigationState σ}
    {cr : ChildRouter σ} {r : Route σ}
    (hcr : (T.order.get? state.index).bind T.tabRouters = some cr)
    (hr : state.routes.get? state.index = some r)
    (hsame : cr.getStateForAction (action.action.getD action) (state.routes.get? state.index) =
      state.routes.get? state.index) :
    activeTabStep T action b state = none := by
  rw [hr] at hsame
  simp only [activeTabStep, hcr, hr, hsame]
  simp

theorem activeTabStep_reject {σ : Type} [DecidableEq σ] {T : RouterTable σ}
    {action : NavigationAction} {state : NavigationState σ} {cr : ChildRouter σ}
    (hcr : (T.order.get? state.index).bind T.tabRouters = some cr)
    (hnone : cr.getStateForAction (action.action.getD action) (state.routes.get? state.index) =
      none) :
    activeTabStep T action true state = some none := by
  simp only [activeTabStep, hcr, hnone]
  simp

theorem backTargetIndex_of_not_back {σ : Type} {T : RouterTable σ}
    {action : NavigationAction} {state : NavigationState σ}
    (h : action.type ≠ BACK) :
    backTargetIndex T action state = state.index := by
  simp [backTargetIndex, beq_eq_false_iff_ne.mpr h]

theorem navigateIndex_of_not_nav {σ : Type} {T : RouterTable σ} {action : NavigationAction}
    (h : action.type ≠ NAVIGATE) :
    navigateIndex T action = none := by
  simp [navigateIndex, beq_eq_false_iff_ne.mpr h]

theorem navigateFoundName_of_not_nav {σ : Type} {T : RouterTable σ}
    {action : NavigationAction} (h : action.type ≠ NAVIGATE) :
    navigateFoundName T action = none := by
  simp [navigateFoundName, beq_eq_false_iff_ne.mpr h]

theorem afterActiveStep_of_unrelated {σ : Type} [DecidableEq σ] {T : RouterTable σ}
    {action : NavigationAction} {b : Bool} {state : NavigationState σ}
    (hnav : navigateIndex T action = none)
    (hname : navigateFoundName T action = none)
    (hback : backTargetIndex T action state = state.index) :
    afterActiveStep T action b state = some (broadcastStep T action state) := by
  simp [afterActiveStep, navigatePayload, hnav, hname, hback, jsTruthy]

theorem broadcastStep_of_none {σ : Type} [DecidableEq σ] {T : RouterTable σ}
    {action : NavigationAction} {state : NavigationState σ}
    (h : broadcastFind T action state.routes state.index (enumFrom 0 T.order) = none) :
    broadcastStep T action state = state := by
  simp [broadcastStep, h]

/-- All-leaf routers decline every broadcast over a state satisfying the
routes-per-tab invariant. -/
theorem declines_of_leaf {σ : Type} [DecidableEq σ] {T : RouterTable σ}
    {action : NavigationAction} {s : NavigationState σ}
    (hleaf : ∀ n ∈ T.order, T.tabRouters n = none)
    (hlen : s.routes.length = T.order.length) :
    ∀ p ∈ enumFrom 0 T.order, p.1 ≠ s.index → declinesAt T action s.routes p.1 p.2 := by
  intro p hp _
  obtain ⟨i, tabId⟩ := p
  obtain ⟨_, hget⟩ := mem_enumFrom hp
  simp only [Nat.sub_zero] at hget
  have htab : T.tabRouters tabId = none := hleaf tabId (List.get?_mem hget)
  have hi : i < s.routes.length := hlen ▸ get?_some_lt hget
  exact ⟨by simp [htab], lt_get?_isSome hi⟩

/-- C3: dispatching an action whose type is neither BACK nor NAVIGATE
against an existing state of an all-leaf-tab router returns exactly the
input state (the same value, modelling the same reference). -/
theorem unrelatedActionKeepsState {σ : Type} [DecidableEq σ] (T : RouterTable σ)
    (s : NavigationState σ) (action : NavigationAction)
    (hleaf : ∀ n ∈ T.order, T.tabRouters n = none)
    (hlen : s.routes.length = T.order.length)
    (hidx : s.index < s.routes.length)
    (hback : action.type ≠ BACK) (hnav : action.type ≠ NAVIGATE) :
    getStateForAction T action (some s) = some s := by
  have hordidx : s.index < T.order.length := hlen ▸ hidx
  obtain ⟨n, hn⟩ := Option.isSome_iff_exists.mp (lt_get?_isSome hordidx)
  have hbind : (T.order.get? s.index).bind T.tabRouters = none := by
    rw [hn]
    simp [hleaf n (List.get?_mem hn)]
  have hactive : activeTabStep T action true s = none := activeTabStep_of_leaf hbind
  have hfind : broadcastFind T action s.routes s.index (enumFrom 0 T.order) = none :=
    broadcastFind_of_declines (declines_of_leaf hleaf hlen)
  simp only [getStateForAction, mapDeprecatedActionAndWarn, resolveState, Option.isSome_some,
    hactive]
  rw [afterActiveStep_of_unrelated (navigateIndex_of_not_nav hnav)
    (navigateFoundName_of_not_nav hnav)
    (backTargetIndex_of_not_back hback), broadcastStep_of_none hfind]

theorem bind_tabRouters_none {σ : Type} {T : RouterTable σ}
    (h : ∀ n, T.tabRouters n = none) (o : Option String) : o.bind T.tabRouters = none := by
  cases o <;> simp [h]

theorem getStateForAction_pass {σ : Type} [DecidableEq σ] {T : RouterTable σ}
    {action : NavigationAction} {inputState : Option (NavigationState σ)}
    (h : activeTabStep T action inputState.isSome (resolveState T action inputState) = none) :
    getStateForAction T action inputState =
      afterActiveStep T action inputState.isSome (resolveState T action inputState) := by
  simp only [getStateForAction, mapDeprecatedActionAndWarn, h]

theorem getStateForAction_early {σ : Type} [DecidableEq σ] {T : RouterTable σ}
    {action : NavigationAction} {inputState : Option (NavigationState σ)}
    {r : Option (NavigationState σ)}
    (h : activeTabStep T action inputState.isSome (resolveState T action inputState) = some r) :
    getStateForAction T action inputState = r := by
  simp only [getStateForAction, mapDeprecatedActionAndWarn, h]

theorem afterActiveStep_of_back_switch {σ : Type} [DecidableEq σ] {T : RouterTable σ}
    {action : NavigationAction} {b : Bool} {state : NavigationState σ}
    (hnav : navigateIndex T action = none)
    (hname : navigateFoundName T action = none)
    (hback : backTargetIndex T action state ≠ state.index) :
    afterActiveStep T action b state =
      some { state with index := backTargetIndex T action state } := by
  simp [afterActiveStep, navigatePayload, hnav, hname, hback, jsTruthy]

theorem lookupEntry_mem {α : Type} :
    ∀ {m : List (String × α)} {k : String} {c : α},
      lookupEntry m k = some c → ∃ p ∈ m, p.2 = c := by
  intro m
  induction m with
  | nil => intro k c h; simp [lookupEntry] at h
  | cons p rest ih =>
    intro k c h
    by_cases hp : (p.1 == k) = true
    · simp only [lookupEntry, hp, if_true, Option.some.injEq] at h
      exact ⟨p, List.mem_cons_self _ _, h⟩
    · simp only [lookupEntry, hp, Bool.false_eq_true, if_false] at h
      obtain ⟨q, hq, h2⟩ := ih h
      exact ⟨q, List.mem_cons_of_mem _ hq, h2⟩

/-- A router built from an all-leaf config map registers no child
routers. -/
theorem tabRouters_none_of_all_leaf {σ : Type} {rc : RouteConfigs σ} {cfg : TabConfig}
    {T : RouterTable σ} (h : makeTable rc cfg = some T)
    (hscreens : ∀ p ∈ rc, screenRouter p.2 = none) :
    ∀ n, T.tabRouters n = none := by
  intro n
  rw [(makeTable_fields h).2.2.1]
  by_cases hc : (computeOrder rc cfg).contains n
  · simp only [if_pos hc]
    rcases hfind : lookupEntry rc n with _ | c
    · simp
    · obtain ⟨p, hp, rfl⟩ := lookupEntry_mem hfind
      simp [hscreens p hp]
  · simp only [if_neg hc]

/-! ### Concrete fixtures for witnesses and counterexamples -/

/-- A throwaway routing table used only as a getD default. -/
def fallbackTable {σ : Type} : RouterTable σ :=
  { order := [], paths := fun n => n, initialRouteIndex := 0,
    shouldBackNavigateToInitialRoute := true, tabRouters := fun _ => none }

def homeName : String := "Home"

def settingsName : String := "Settings"

def emptyStr : String := ""

def fooType : String := "Foo"

/-- Two leaf tabs, the running example of the spec's back-navigation
property. -/
def rc4 : RouteConfigs Nat := [(homeName, {}), (settingsName, {})]

def table4 : RouterTable Nat := (makeTable rc4 {}).getD fallbackTable

theorem table4_eq : makeTable rc4 ({} : TabConfig) = some table4 := rfl

theorem table4_tabRouters_none : ∀ n, table4.tabRouters n = none := by
  refine tabRouters_none_of_all_leaf table4_eq ?_
  intro p hp
  cases hp with
  | head => rfl
  | tail _ hp =>
    cases hp with
    | head => rfl
    | tail _ hp => cases hp

def st4 : NavigationState Nat :=
  { index := 1,
    routes := [{ key := homeName, routeName := homeName },
               { key := settingsName, routeName := settingsName }] }

def fooAction : NavigationAction := .mk fooType none none none none

/-- C3 witness: the unrelated-action theorem applied to the concrete
two-leaf-tab router. -/
theorem unrelatedActionKeepsStateWitness :
    (∀ n ∈ table4.order, table4.tabRouters n = none) ∧
    st4.routes.length = table4.order.length ∧
    st4.index < st4.routes.length ∧
    fooAction.type ≠ BACK ∧ fooAction.type ≠ NAVIGATE ∧
    getStateForAction table4 fooAction (some st4) = some st4 :=
  ⟨fun n _ => table4_tabRouters_none n, by decide, by decide, by decide, by decide,
   unrelatedActionKeepsState table4 st4 fooAction (fun n _ => table4_tabRouters_none n)
     (by decide) (by decide) (by decide) (by decide)⟩

/-- C4: with backBehavior initialRoute, leaf tabs Home and Settings in
that order, initial route Home, and a state on Settings, a BACK action
carrying no key or the active route's key returns to index 0. -/
theorem backReturnsToInitialTab (s : NavigationState Nat) (k : Option String)
    (hlen : s.routes.length = 2) (hidx : s.index = 1)
    (hk : k = none ∨ k = (s.routes.get? 1).map Route.key) :
    getStateForAction table4 (NavigationAction.mk BACK k none none none) (some s) =
      some { s with index := 0 } := by
  have hactive :
      activeTabStep table4 (NavigationAction.mk BACK k none none none) true s = none :=
    activeTabStep_of_leaf (bind_tabRouters_none table4_tabRouters_none _)
  have htype : (NavigationAction.mk BACK k none none none).type ≠ NAVIGATE := by
    show BACK ≠ NAVIGATE
    decide
  have hcond : (BACK == BACK && true && table4.shouldBackNavigateToInitialRoute) = true := by
    decide
  have hbt : backTargetIndex table4 (NavigationAction.mk BACK k none none none) s = 0 := by
    rcases hk with rfl | hk
    · simp only [backTargetIndex, NavigationAction.type, NavigationAction.key, hcond, if_true]
      decide
    · rcases hg : (s.routes.get? 1).map Route.key with _ | k0
      · rw [hg] at hk
        subst hk
        simp only [backTargetIndex, NavigationAction.type, NavigationAction.key, hcond, if_true]
        decide
      · rw [hg] at hk
        subst hk
        simp only [backTargetIndex, NavigationAction.type, NavigationAction.key, hidx, hg,
          beq_self_eq_true, hcond, if_true]
        decide
  rw [getStateForAction_pass (by simpa [resolveState] using hactive)]
  simp only [resolveState, Option.isSome_some]
  rw [afterActiveStep_of_back_switch (navigateIndex_of_not_nav htype)
      (navigateFoundName_of_not_nav htype) (by rw [hbt, hidx]; decide), hbt]

/-- C4 witness: the back-to-initial theorem at a concrete state. -/
theorem backReturnsToInitialTabWitness :
    st4.routes.length = 2 ∧ st4.index = 1 ∧
    getStateForAction table4 (NavigationAction.mk BACK none none none none) (some st4) =
      some { st4 with index := 0 } :=
  ⟨by decide, by decide,
   backReturnsToInitialTab st4 none (by decide) (by decide) (Or.inl rfl)⟩

/-- C8: on an all-leaf router with backBehavior initialRoute, a BACK
action whose key differs from the active route's key is ineligible: the
dispatch returns the input state unchanged. -/
theorem ineligibleBackKeepsIndex {σ : Type} [DecidableEq σ] (T : RouterTable σ)
    (s : NavigationState σ) (k : String)
    (hleaf : ∀ n, T.tabRouters n = none)
    (hshould : T.shouldBackNavigateToInitialRoute = true)
    (hlen : s.routes.length = T.order.length)
    (hidx : s.index < s.routes.length)
    (hk : (s.routes.get? s.index).map Route.key ≠ some k) :
    getStateForAction T (NavigationAction.mk BACK (some k) none none none) (some s) = some s := by
  have hactive :
      activeTabStep T (NavigationAction.mk BACK (some k) none none none) true s = none :=
    activeTabStep_of_leaf (bind_tabRouters_none hleaf _)
  have htype : (NavigationAction.mk BACK (some k) none none none).type ≠ NAVIGATE := by
    show BACK ≠ NAVIGATE
    decide
  have hbt : backTargetIndex T (NavigationAction.mk BACK (some k) none none none) s =
      s.index := by
    simp only [backTargetIndex, NavigationAction.type, NavigationAction.key,
      beq_eq_false_iff_ne.mpr hk]
    simp
  have hfind :
      broadcastFind T (NavigationAction.mk BACK (some k) none none none) s.routes s.index
        (enumFrom 0 T.order) = none :=
    broadcastFind_of_declines (declines_of_leaf (fun n _ => hleaf n) hlen)
  rw [getStateForAction_pass (by simpa [resolveState] using hactive)]
  simp only [resolveState, Option.isSome_some]
  rw [afterActiveStep_of_unrelated (navigateIndex_of_not_nav htype)
    (navigateFoundName_of_not_nav htype) hbt, broadcastStep_of_none hfind]

/-- C8 witness: an ineligible BACK key at a concrete state. -/
theorem ineligibleBackKeepsIndexWitness :
    table4.shouldBackNavigateToInitialRoute = true ∧
    (st4.routes.get? st4.index).map Route.key ≠ some homeName ∧
    getStateForAction table4 (NavigationAction.mk BACK (some homeName) none none none)
      (some st4) = some st4 :=
  ⟨by decide, by decide,
   ineligibleBackKeepsIndex table4 st4 homeName table4_tabRouters_none (by decide)
     (by decide) (by decide) (by decide)⟩

theorem activeTabStep_none_result_noinput {σ : Type} [DecidableEq σ] {T : RouterTable σ}
    {action : NavigationAction} {state : NavigationState σ} {cr : ChildRouter σ}
    (hcr : (T.order.get? state.index).bind T.tabRouters = some cr)
    (hnone : cr.getStateForAction (action.action.getD action) (state.routes.get? state.index) =
      none) :
    activeTabStep T action false state = none := by
  simp only [activeTabStep, hcr, hnone]
  simp

theorem activeTabStep_splice {σ : Type} [DecidableEq σ] {T : RouterTable σ}
    {action : NavigationAction} {b : Bool} {state : NavigationState σ}
    {cr : ChildRouter σ} {r' : Route σ}
    (hb : (T.order.get? state.index).bind T.tabRouters = some cr)
    (hc : cr.getStateForAction (action.action.getD action) (state.routes.get? state.index) =
      some r')
    (hne : some r' ≠ state.routes.get? state.index) :
    activeTabStep T action b state =
      some (some { state with routes := state.routes.set state.index r' }) := by
  simp only [activeTabStep, hb, hc]
  simp only [List.get?_eq_getElem?] at hne
  simp [hne]

theorem activeTabStep_false_isSome {σ : Type} [DecidableEq σ] {T : RouterTable σ}
    {action : NavigationAction} {state : NavigationState σ} {r : Option (NavigationState σ)}
    (h : activeTabStep T action false state = some r) : r.isSome := by
  rcases hb : (T.order.get? state.index).bind T.tabRouters with _ | cr
  · rw [activeTabStep_of_leaf hb] at h
    exact absurd h (by simp)
  · rcases hc : cr.getStateForAction (action.action.getD action)
        (state.routes.get? state.index) with _ | r'
    · rw [activeTabStep_none_result_noinput hb hc] at h
      exact absurd h (by simp)
    · by_cases hne : some r' = state.routes.get? state.index
      · rw [activeTabStep_of_same hb hne.symm (hc.trans hne)] at h
        exact absurd h (by simp)
      · rw [activeTabStep_splice hb hc hne] at h
        injection h with h
        subst h
        rfl

theorem afterActiveStep_isSome {σ : Type} [DecidableEq σ] (T : RouterTable σ)
    (action : NavigationAction) (state : NavigationState σ) :
    (afterActiveStep T action false state).isSome := by
  rcases hp : navigatePayload T action (jsTruthy (navigateFoundName T action))
      ((navigateIndex T action).getD (backTargetIndex T action state)) state with _ | s2
  · by_cases hi :
        (navigateIndex T action).getD (backTargetIndex T action state) ≠ state.index
    · simp [afterActiveStep, hp, hi]
    · cases hdn : jsTruthy (navigateFoundName T action)
      · rw [hdn] at hp
        simp [afterActiveStep, hp, hi, hdn]
      · rw [hdn] at hp
        simp [afterActiveStep, hp, hi, hdn]
  · simp [afterActiveStep, hp]

/-- C6: an active navigator tab whose child router returns a falsy
result makes the dispatch return null exactly when the caller supplied
an input state; with no input state the dispatcher never returns null at
all. -/
theorem activeChildRejection {σ : Type} [DecidableEq σ] :
    (∀ (T : RouterTable σ) (action : NavigationAction) (s : NavigationState σ)
        (cr : ChildRouter σ),
        (T.order.get? s.index).bind T.tabRouters = some cr →
        cr.getStateForAction (action.action.getD action) (s.routes.get? s.index) = none →
        getStateForAction T action (some s) = none) ∧
    (∀ (T : RouterTable σ) (action : NavigationAction),
        (getStateForAction T action none).isSome) := by
  constructor
  · intro T action s cr hcr hnone
    exact getStateForAction_early (activeTabStep_reject hcr hnone)
  · intro T action
    rcases h : activeTabStep T action false (resolveState T action none) with _ | r
    · rw [getStateForAction_pass h]
      exact afterActiveStep_isSome T action (resolveState T action none)
    · rw [getStateForAction_early h]
      exact activeTabStep_false_isSome h

def rejectChild {σ : Type} : ChildRouter σ :=
  { getStateForAction := fun _ _ => none,
    getPathAndParamsForState := fun _ => { path := "", params := none },
    getActionForPathAndParams := fun _ _ => none }

def aName : String := "A"

def bName : String := "B"

def cName : String := "C"

def rc6 : RouteConfigs Nat :=
  [(aName, { screen := some { router := some rejectChild } }), (bName, {})]

def table6 : RouterTable Nat := (makeTable rc6 {}).getD fallbackTable

def st6 : NavigationState Nat :=
  { index := 0,
    routes := [{ key := aName, routeName := aName }, { key := bName, routeName := bName }] }

/-- C6 witness: a rejecting child router on the active tab at a concrete
state, and the never-null guarantee at a concrete no-state dispatch. -/
theorem activeChildRejectionWitness :
    (table6.order.get? st6.index).bind table6.tabRouters = some rejectChild ∧
    getStateForAction table6 fooAction (some st6) = none ∧
    (getStateForAction table6 fooAction none).isSome :=
  ⟨rfl,
   activeChildRejection.1 table6 fooAction st6 rejectChild rfl rfl,
   activeChildRejection.2 table6 fooAction⟩

theorem navigateIndex_navigateTo {σ : Type} {T : RouterTable σ} {tname : String} :
    navigateIndex T (navigateTo tname) = jsIndexOf tname T.order := by
  simp [navigateIndex, navigateTo, NavigationAction.type, NavigationAction.routeName]

theorem navigateFoundName_navigateTo {σ : Type} {T : RouterTable σ} {tname : String} :
    navigateFoundName T (navigateTo tname) = T.order.find? (fun x => x == tname) := by
  simp [navigateFoundName, navigateTo, NavigationAction.type, NavigationAction.routeName]

theorem find?_eq_of_jsIndexOf {target : String} :
    ∀ {l : List String} {i : Nat}, jsIndexOf target l = some i →
      l.find? (fun x => x == target) = some target := by
  intro l
  induction l with
  | nil => intro i h; simp [jsIndexOf] at h
  | cons x rest ih =>
    intro i h
    by_cases hx : x = target
    · subst hx
      rw [List.find?_cons_of_pos _ (by simp)]
    · simp only [jsIndexOf, if_neg hx, Option.map_eq_some'] at h
      obtain ⟨j, hj, _⟩ := h
      rw [List.find?_cons_of_neg _ (by simp [hx])]
      exact ih hj

theorem navigatePayload_of_noact {σ : Type} [DecidableEq σ] {T : RouterTable σ}
    {action : NavigationAction} (hnoact : action.action = none) (dn : Bool) (i : Nat)
    (state : NavigationState σ) :
    navigatePayload T action dn i state = none := by
  cases dn <;> simp [navigatePayload, hnoact]

theorem afterActiveStep_of_navigate_self {σ : Type} [DecidableEq σ] {T : RouterTable σ}
    {action : NavigationAction} {state : NavigationState σ}
    (hnav : navigateIndex T action = some state.index)
    (htruthy : jsTruthy (navigateFoundName T action) = true)
    (hnoact : action.action = none) (b : Bool) :
    afterActiveStep T action b state = if b then none else some state := by
  cases b <;>
    simp [afterActiveStep, navigatePayload_of_noact hnoact, hnav, htruthy, hnoact]

/-- C2 amended: dispatching NAVIGATE to the tab the state already shows,
the tab's name being a non-empty string — with no nested action, and a
child router (if any) that yields no new route — returns null when the
caller supplied the state, and the materialized state itself when no
state was supplied. -/
theorem navigateToActiveNoOp {σ : Type} [DecidableEq σ] (T : RouterTable σ) (tname : String)
    (inputState : Option (NavigationState σ)) (s : NavigationState σ)
    (hne : tname ≠ "")
    (hs : resolveState T (navigateTo tname) inputState = s)
    (hidx : jsIndexOf tname T.order = some s.index)
    (hactive : ∀ cr, (T.order.get? s.index).bind T.tabRouters = some cr →
      cr.getStateForAction (navigateTo tname) (s.routes.get? s.index) = none ∨
      cr.getStateForAction (navigateTo tname) (s.routes.get? s.index) =
        s.routes.get? s.index) :
    getStateForAction T (navigateTo tname) inputState =
      if inputState.isSome then none else some s := by
  have hnavidx : navigateIndex T (navigateTo tname) = some s.index := by
    rw [navigateIndex_navigateTo, hidx]
  have htruthy : jsTruthy (navigateFoundName T (navigateTo tname)) = true := by
    rw [navigateFoundName_navigateTo, find?_eq_of_jsIndexOf hidx]
    simp [jsTruthy, beq_eq_false_iff_ne.mpr hne]
  have hpass : activeTabStep T (navigateTo tname) inputState.isSome s = none →
      getStateForAction T (navigateTo tname) inputState =
        if inputState.isSome then none else some s := by
    intro h
    rw [getStateForAction_pass (by rw [hs]; exact h), hs,
      afterActiveStep_of_navigate_self hnavidx htruthy rfl inputState.isSome]
  rcases hb : (T.order.get? s.index).bind T.tabRouters with _ | cr
  · exact hpass (activeTabStep_of_leaf hb)
  · have handleNone :
        cr.getStateForAction (navigateTo tname) (s.routes.get? s.index) = none →
        getStateForAction T (navigateTo tname) inputState =
          if inputState.isSome then none else some s := by
      intro hnone
      cases inputState with
      | none =>
        exact hpass (@activeTabStep_none_result_noinput σ _ T (navigateTo tname) s cr hb hnone)
      | some s0 =>
        have hs0 : s0 = s := hs
        subst hs0
        rw [getStateForAction_early
          (@activeTabStep_reject σ _ T (navigateTo tname) s0 cr hb hnone)]
        rfl
    rcases hactive cr hb with hnone | hsame
    · exact handleNone hnone
    · rcases hg : s.routes.get? s.index with _ | r
      · refine handleNone ?_
        rw [hg] at hsame ⊢
        exact hsame
      · exact hpass
          (@activeTabStep_of_same σ _ T (navigateTo tname) inputState.isSome s cr r hb hg hsame)

/-- A single tab named by the empty string; the factory accepts it
(initialRouteName falls back to order[0] = "", indexOf finds it). -/
def rcE : RouteConfigs Nat := [(emptyStr, {})]

def tableE : RouterTable Nat := (makeTable rcE {}).getD fallbackTable

def stE : NavigationState Nat :=
  { index := 0, routes := [{ key := emptyStr, routeName := emptyStr }] }

/-- C2 counterexample: with the active tab named by the empty string,
NAVIGATE to it against a caller-supplied state returns the state itself,
not null — `didNavigate` is the JS truthiness of the matched route name
(line 109), which is false for the empty string, so the dispatch falls
through to the stable-result return of line 177. -/
theorem navigateToActiveNoOpClaimFails :
    tableE.order.get? stE.index = some emptyStr ∧
    getStateForAction tableE (navigateTo emptyStr) (some stE) = some stE :=
  ⟨rfl, by decide⟩

/-- C2 witness: navigating to the already-active, non-empty-named
Settings tab of a concrete two-leaf-tab state returns null. -/
theorem navigateToActiveNoOpWitness :
    settingsName ≠ "" ∧
    resolveState table4 (navigateTo settingsName) (some st4) = st4 ∧
    jsIndexOf settingsName table4.order = some st4.index ∧
    getStateForAction table4 (navigateTo settingsName) (some st4) = none := by
  refine ⟨by decide, rfl, by decide, ?_⟩
  have h := navigateToActiveNoOp table4 settingsName (some st4) st4 (by decide) rfl (by decide)
    (fun cr hcr =>
      absurd ((bind_tabRouters_none table4_tabRouters_none _).symm.trans hcr) (by simp))
  simpa using h

theorem broadcastStep_of_found {σ : Type} [DecidableEq σ] {T : RouterTable σ}
    {action : NavigationAction} {state : NavigationState σ} {i : Nat} {rs : List (Route σ)}
    (h : broadcastFind T action state.routes state.index (enumFrom 0 T.order) = some (i, rs))
    (hi : i ≠ state.index) :
    broadcastStep T action state = { state with index := i, routes := rs } := by
  simp [broadcastStep, h, hi]

/-- C5: when a dispatch reaches the broadcast step and the first
inactive tab owning a child router answers falsy — every earlier
inactive tab being a leaf whose stored route is present — the result
switches the index to that tab while the routes sequence of the input
state is kept in place unchanged. -/
theorem broadcastFalsySwitchesIndex {σ : Type} [DecidableEq σ] (T : RouterTable σ)
    (s : NavigationState σ) (action : NavigationAction)
    (j : Nat) (tabJ : String) (crJ : ChildRouter σ) (l1 l2 : List (Nat × String))
    (hidx : s.index < s.routes.length)
    (htypeB : action.type ≠ BACK) (htypeN : action.type ≠ NAVIGATE)
    (hactive : ∀ cr, (T.order.get? s.index).bind T.tabRouters = some cr →
      cr.getStateForAction (action.action.getD action) (s.routes.get? s.index) =
        s.routes.get? s.index)
    (hsplit : enumFrom 0 T.order = l1 ++ (j, tabJ) :: l2)
    (hearlier : ∀ p ∈ l1, p.1 ≠ s.index →
      T.tabRouters p.2 = none ∧ (s.routes.get? p.1).isSome)
    (hj : j ≠ s.index)
    (hnav : T.tabRouters tabJ = some crJ)
    (hfalsy : crJ.getStateForAction action (s.routes.get? j) = none) :
    getStateForAction T action (some s) = some { index := j, routes := s.routes } := by
  have hpassact : activeTabStep T action true s = none := by
    rcases hb : (T.order.get? s.index).bind T.tabRouters with _ | cr
    · exact activeTabStep_of_leaf hb
    · obtain ⟨r, hr⟩ := Option.isSome_iff_exists.mp (lt_get?_isSome hidx)
      exact activeTabStep_of_same hb hr (hactive cr hb)
  have hfound : broadcastFind T action s.routes s.index (enumFrom 0 T.order) =
      some (j, s.routes) := by
    rw [hsplit]
    refine broadcastFind_first_none ?_ hj ?_
    · intro p hp hne
      obtain ⟨htab, hsome⟩ := hearlier p hp hne
      exact ⟨by simp [htab], hsome⟩
    · simp only [hnav]
      exact hfalsy
  rw [getStateForAction_pass hpassact]
  simp only [resolveState, Option.isSome_some]
  rw [afterActiveStep_of_unrelated (navigateIndex_of_not_nav htypeN)
    (navigateFoundName_of_not_nav htypeN)
    (backTargetIndex_of_not_back htypeB), broadcastStep_of_found hfound hj]

def rc5 : RouteConfigs Nat :=
  [(aName, {}), (bName, {}), (cName, { screen := some { router := some rejectChild } })]

def table5 : RouterTable Nat := (makeTable rc5 {}).getD fallbackTable

def st5 : NavigationState Nat :=
  { index := 1,
    routes := [{ key := aName, routeName := aName }, { key := bName, routeName := bName },
               { key := cName, routeName := cName }] }

/-- C5 witness: three tabs, the leaf B active, the leaf A declining and
the navigator C rejecting the action: the index moves to C's position 2
with the stored routes untouched. -/
theorem broadcastFalsySwitchesIndexWitness :
    enumFrom 0 table5.order = [(0, aName), (1, bName)] ++ (2, cName) :: [] ∧
    table5.tabRouters cName = some rejectChild ∧
    getStateForAction table5 fooAction (some st5) =
      some { index := 2, routes := st5.routes } := by
  refine ⟨rfl, rfl, ?_⟩
  refine broadcastFalsySwitchesIndex table5 st5 fooAction 2 cName rejectChild
    [(0, aName), (1, bName)] [] (by decide) (by decide) (by decide) ?_ rfl ?_ (by decide)
    rfl rfl
  · intro cr hcr
    have h0 : (table5.order.get? st5.index).bind table5.tabRouters = none := rfl
    rw [h0] at hcr
    exact Option.noConfusion hcr
  · intro p hp hne
    have : p = (0, aName) ∨ p = (1, bName) := by
      rcases List.mem_cons.mp hp with h | h
      · exact Or.inl h
      · rcases List.mem_cons.mp h with h | h
        · exact Or.inr h
        · cases h
    rcases this with rfl | rfl
    · exact ⟨rfl, rfl⟩
    · exact ⟨rfl, rfl⟩

def xKey : String := "X"

/-- A child router that answers every action with a fresh route. -/
def hijackChild : ChildRouter Nat :=
  { getStateForAction := fun _ _ => some { key := xKey, routeName := aName, child := some 7 },
    getPathAndParamsForState := fun _ => { path := "", params := none },
    getActionForPathAndParams := fun _ _ => none }

def rc7 : RouteConfigs Nat :=
  [(aName, { screen := some { router := some hijackChild } }), (bName, {})]

def table7 : RouterTable Nat := (makeTable rc7 {}).getD fallbackTable

def st7 : NavigationState Nat :=
  { index := 0,
    routes := [{ key := aName, routeName := aName }, { key := bName, routeName := bName }] }

/-- C7 counterexample: B is a leaf tab at position 1 and the state shows
index 0, yet NAVIGATE to B does not switch to index 1 with the routes
untouched — the active navigator tab handles the action first and the
dispatch keeps index 0 with a spliced route. -/
theorem tabSwitchClaimFails :
    getStateForAction table7 (navigateTo bName) (some st7) ≠
      some { st7 with index := 1 } := by decide

theorem afterActiveStep_of_navigate_switch {σ : Type} [DecidableEq σ] {T : RouterTable σ}
    {action : NavigationAction} {state : NavigationState σ} {p : Nat}
    (hnav : navigateIndex T action = some p)
    (hnoact : action.action = none)
    (hp : p ≠ state.index) (b : Bool) :
    afterActiveStep T action b state = some { state with index := p } := by
  simp [afterActiveStep, navigatePayload_of_noact hnoact, hnav, hp]

/-- C7 amended: NAVIGATE (with no nested action) to a leaf tab whose
first position p in order differs from s.index returns the state with
only the index moved to p and the routes sequence unchanged, provided
the active tab declines the action: it is a leaf tab, or its child
router returns the stored active route unchanged. -/
theorem tabSwitchPure {σ : Type} [DecidableEq σ] (T : RouterTable σ)
    (s : NavigationState σ) (tname : String) (p : Nat)
    (hfind : jsIndexOf tname T.order = some p)
    (hleafT : T.tabRouters tname = none)
    (hp : p ≠ s.index)
    (hidx : s.index < s.routes.length)
    (hactive : ∀ cr, (T.order.get? s.index).bind T.tabRouters = some cr →
      cr.getStateForAction (navigateTo tname) (s.routes.get? s.index) =
        s.routes.get? s.index) :
    getStateForAction T (navigateTo tname) (some s) = some { s with index := p } := by
  have hpassact : activeTabStep T (navigateTo tname) true s = none := by
    rcases hb : (T.order.get? s.index).bind T.tabRouters with _ | cr
    · exact activeTabStep_of_leaf hb
    · obtain ⟨r, hr⟩ := Option.isSome_iff_exists.mp (lt_get?_isSome hidx)
      exact @activeTabStep_of_same σ _ T (navigateTo tname) true s cr r hb hr (hactive cr hb)
  have hnavp : navigateIndex T (navigateTo tname) = some p := by
    rw [navigateIndex_navigateTo, hfind]
  rw [getStateForAction_pass hpassact]
  simp only [resolveState, Option.isSome_some]
  rw [afterActiveStep_of_navigate_switch hnavp rfl hp]

/-- C7 amended witness: from the Settings tab, NAVIGATE to the leaf Home
tab switches a concrete state to index 0 keeping the routes. -/
theorem tabSwitchPureWitness :
    jsIndexOf homeName table4.order = some 0 ∧
    table4.tabRouters homeName = none ∧
    getStateForAction table4 (navigateTo homeName) (some st4) =
      some { st4 with index := 0 } := by
  refine ⟨by decide, table4_tabRouters_none homeName, ?_⟩
  exact tabSwitchPure table4 st4 homeName 0 (by decide) (table4_tabRouters_none homeName)
    (by decide) (by decide)
    (fun cr hcr =>
      absurd ((bind_tabRouters_none table4_tabRouters_none _).symm.trans hcr) (by simp))

theorem initTabRoute_routeName {σ : Type} (c : Option (Route σ)) (n : String) :
    (initTabRoute c n).routeName = n := by
  cases c <;> rfl

theorem materialize_length {σ : Type} (T : RouterTable σ) (a : NavigationAction) :
    (materialize T a).routes.length = T.order.length := by
  simp [materialize]

theorem materialize_get? {σ : Type} (T : RouterTable σ) (a : NavigationAction) (i : Nat) :
    (materialize T a).routes.get? i = (T.order.get? i).map (fun routeName =>
      match T.tabRouters routeName with
      | some tabRouter =>
          initTabRoute (tabRouter.getStateForAction (a.action.getD initAction) none) routeName
      | none => { key := routeName, routeName := routeName }) := by
  simp [materialize, List.get?_map]

/-- C1: a dispatch of INIT with no input state yields the materialized
default: index = initialRouteIndex, one route per tab of order, the
route at position i carrying routeName order[i] — for every valid
configuration whose registered child routers treat INIT as idempotent on
an existing route, as the recursive router contract prescribes. -/
theorem initProducesOrderedState {σ : Type} [DecidableEq σ]
    (rc : RouteConfigs σ) (cfg : TabConfig) (T : RouterTable σ)
    (hT : makeTable rc cfg = some T)
    (hchild : ∀ n cr, T.tabRouters n = some cr →
      ∀ r : Route σ, cr.getStateForAction initAction (some r) = some r) :
    getStateForAction T initAction none = some (materialize T initAction) ∧
    (materialize T initAction).index = T.initialRouteIndex ∧
    (materialize T initAction).routes.length = T.order.length ∧
    (∀ i, i < T.order.length →
      ((materialize T initAction).routes.get? i).map Route.routeName = T.order.get? i) := by
  obtain ⟨hord, _, _, hlt, _⟩ := makeTable_fields hT
  have hltT : T.initialRouteIndex < T.order.length := by rw [hord]; exact hlt
  have hfun : ∀ i (n : String), T.order.get? i = some n →
      (materialize T initAction).routes.get? i =
        some (match T.tabRouters n with
          | some tabRouter => initTabRoute (tabRouter.getStateForAction initAction none) n
          | none => { key := n, routeName := n }) := by
    intro i n hn
    rw [materialize_get?, hn]
    rfl
  have hchildsame : ∀ i (n : String) cr, T.order.get? i = some n →
      T.tabRouters n = some cr →
      cr.getStateForAction initAction ((materialize T initAction).routes.get? i) =
        (materialize T initAction).routes.get? i := by
    intro i n cr hn htab
    rw [hfun i n hn]
    exact hchild n cr htab _
  have hpassact : activeTabStep T initAction false (materialize T initAction) = none := by
    rcases hb : (T.order.get? (materialize T initAction).index).bind T.tabRouters with _ | cr
    · exact activeTabStep_of_leaf hb
    · obtain ⟨n, hn, htab⟩ := Option.bind_eq_some.mp hb
      obtain ⟨r, hr⟩ := Option.isSome_iff_exists.mp
        (lt_get?_isSome (α := Route σ)
          (l := (materialize T initAction).routes) (i := (materialize T initAction).index)
          (by rw [materialize_length]; exact hltT))
      exact @activeTabStep_of_same σ _ T initAction false (materialize T initAction) cr r hb hr
        (hchildsame _ n cr hn htab)
  have hdecl : ∀ p ∈ enumFrom 0 T.order, p.1 ≠ (materialize T initAction).index →
      declinesAt T initAction (materialize T initAction).routes p.1 p.2 := by
    intro p hp _
    obtain ⟨_, hget⟩ := mem_enumFrom hp
    simp only [Nat.sub_zero] at hget
    constructor
    · rcases htab : T.tabRouters p.2 with _ | cr
      · rfl
      · exact hchildsame p.1 p.2 cr hget htab
    · rw [hfun p.1 p.2 hget]
      rfl
  have hfind : broadcastFind T initAction (materialize T initAction).routes
      (materialize T initAction).index (enumFrom 0 T.order) = none :=
    broadcastFind_of_declines hdecl
  have htypeB : initAction.type ≠ BACK := by decide
  have htypeN : initAction.type ≠ NAVIGATE := by decide
  refine ⟨?_, rfl, materialize_length T initAction, ?_⟩
  · rw [getStateForAction_pass hpassact]
    simp only [Option.isSome_none, resolveState]
    rw [afterActiveStep_of_unrelated (navigateIndex_of_not_nav htypeN)
      (navigateFoundName_of_not_nav htypeN)
      (backTargetIndex_of_not_back htypeB), broadcastStep_of_none hfind]
  · intro i hi
    obtain ⟨n, hn⟩ := Option.isSome_iff_exists.mp (lt_get?_isSome hi)
    rw [hfun i n hn, hn]
    rcases htab : T.tabRouters n with _ | cr <;>
      simp [htab, initTabRoute_routeName]

/-- C1 witness: the INIT dispatch on the concrete two-leaf-tab router. -/
theorem initProducesOrderedStateWitness :
    makeTable rc4 ({} : TabConfig) = some table4 ∧
    getStateForAction table4 initAction none = some (materialize table4 initAction) ∧
    (materialize table4 initAction).index = table4.initialRouteIndex ∧
    (materialize table4 initAction).routes.length = table4.order.length := by
  have h := initProducesOrderedState rc4 {} table4 table4_eq
    (fun n cr hcr => absurd ((table4_tabRouters_none n).symm.trans hcr) (by simp))
  exact ⟨table4_eq, h.1, h.2.1, h.2.2.1⟩

/-! ### The path codec and the factory's paths table -/

def profileName : String := "Profile"

def profilePath : String := "profile"

def rc9 : RouteConfigs Nat :=
  [(homeName, { path := some emptyStr }), (profileName, { path := some profilePath })]

def table9 : RouterTable Nat := (makeTable rc9 {}).getD fallbackTable

def st9 : NavigationState Nat :=
  { index := 1,
    routes := [{ key := homeName, routeName := homeName },
               { key := profileName, routeName := profileName }] }

/-- C9: with paths Home ↦ "" and Profile ↦ "profile", encoding the state
on tab 1 yields the path "profile", and decoding "profile" yields a
NAVIGATE action for Profile. -/
theorem pathRoundTrip :
    getPathAndParamsForState table9 st9 = { path := profilePath, params := none } ∧
    getActionForPathAndParams table9 profilePath none = some (navigateTo profileName) :=
  ⟨rfl, rfl⟩

theorem lookup_mapReplace (k v n : String) :
    ∀ (m : List (String × String)),
      lookupEntry (m.map fun q => if q.1 == k then (k, v) else q) n =
        if n = k then (if m.any (fun q => q.1 == k) then some v else none)
        else lookupEntry m n := by
  intro m
  induction m with
  | nil =>
    by_cases hn : n = k <;> simp [lookupEntry, hn]
  | cons p rest ih =>
    by_cases hp : (p.1 == k) = true
    · by_cases hn : n = k
      · subst hn
        simp only [List.map_cons, if_pos hp, lookupEntry, List.any_cons, hp, Bool.true_or,
          if_pos rfl, if_true]
        simp
      · have hkn : (k == n) = false := beq_eq_false_iff_ne.mpr (Ne.symm hn)
        have hpn : (p.1 == n) = false := by
          have : p.1 = k := by simpa using hp
          rw [this]
          exact hkn
        simp only [List.map_cons, if_pos hp, lookupEntry, hkn, Bool.false_eq_true, if_false,
          if_neg hn, hpn]
        rw [ih, if_neg hn]
    · have hpf : (p.1 == k) = false := by simpa using hp
      by_cases hn : n = k
      · subst hn
        have hpn : (p.1 == n) = false := hpf
        simp only [List.map_cons, hpf, Bool.false_eq_true, if_false, lookupEntry, hpn,
          List.any_cons, Bool.false_or]
        rw [ih]
        simp
      · simp only [List.map_cons, hpf, Bool.false_eq_true, if_false, lookupEntry, if_neg hn]
        by_cases hpn : (p.1 == n) = true
        · simp [hpn]
        · simp only [hpn, Bool.false_eq_true, if_false]
          rw [ih, if_neg hn]

theorem lookup_append_single (k v n : String) :
    ∀ (m : List (String × String)),
      lookupEntry (m ++ [(k, v)]) n =
        match lookupEntry m n with
        | some x => some x
        | none => if k == n then some v else none := by
  intro m
  induction m with
  | nil => simp [lookupEntry]
  | cons p rest ih =>
    by_cases hpn : (p.1 == n) = true
    · simp [lookupEntry, hpn]
    · simp only [List.cons_append, lookupEntry, hpn, Bool.false_eq_true, if_false]
      exact ih

theorem lookup_none_of_not_any (k : String) :
    ∀ (m : List (String × String)), (m.any (fun q => q.1 == k)) = false →
      lookupEntry m k = none := by
  intro m
  induction m with
  | nil => intro _; rfl
  | cons p rest ih =>
    intro h
    simp only [List.any_cons, Bool.or_eq_false_iff] at h
    simp only [lookupEntry, h.1, Bool.false_eq_true, if_false]
    exact ih h.2

theorem lookup_setEntry_self (m : List (String × String)) (k v : String) :
    lookupEntry (setEntry m k v) k = some v := by
  unfold setEntry
  by_cases ha : (m.any fun q => q.1 == k) = true
  · rw [if_pos ha, lookup_mapReplace, if_pos rfl, if_pos ha]
  · have haf : (m.any fun q => q.1 == k) = false := Bool.eq_false_iff.mpr ha
    rw [if_neg (show ¬((m.any fun q => q.1 == k) = true) from ha), lookup_append_single,
      lookup_none_of_not_any k m haf]
    simp

theorem lookup_setEntry_other (m : List (String × String)) (k v n : String) (h : n ≠ k) :
    lookupEntry (setEntry m k v) n = lookupEntry m n := by
  unfold setEntry
  by_cases ha : (m.any fun q => q.1 == k) = true
  · rw [if_pos ha, lookup_mapReplace, if_neg h]
  · rw [if_neg (show ¬((m.any fun q => q.1 == k) = true) from ha), lookup_append_single]
    rcases hl : lookupEntry m n with _ | x
    · simp [beq_eq_false_iff_ne.mpr (Ne.symm h)]
    · rfl

theorem lookup_pathsFold_not_mem {σ : Type} (rc : RouteConfigs σ) :
    ∀ (L : List String) (acc : List (String × String)) (n : String), n ∉ L →
      lookupEntry (L.foldl (pathsStep rc) acc) n = lookupEntry acc n := by
  intro L
  induction L with
  | nil => intro acc n _; rfl
  | cons x rest ih =>
    intro acc n h
    have hxn : n ≠ x := fun he => h (he ▸ List.mem_cons_self x rest)
    simp only [List.foldl_cons]
    rw [ih _ n (fun hm => h (List.mem_cons_of_mem _ hm))]
    rcases h2 : lookupEntry rc x with _ | c
    · simp only [pathsStep, h2]
    · simp only [pathsStep, h2]
      exact lookup_setEntry_other _ _ _ _ hxn

theorem lookup_pathsFold_mem {σ : Type} (rc : RouteConfigs σ) :
    ∀ (L : List String) (acc : List (String × String)) (n : String) (c : RouteConfig σ),
      n ∈ L → lookupEntry rc n = some c →
      lookupEntry (L.foldl (pathsStep rc) acc) n = some (pathSegment c n) := by
  intro L
  induction L with
  | nil => intro acc n c h _; cases h
  | cons x rest ih =>
    intro acc n c hmem hrc
    simp only [List.foldl_cons]
    by_cases hrest : n ∈ rest
    · exact ih _ n c hrest hrc
    · have hx : n = x := by
        rcases List.mem_cons.mp hmem with h | h
        · exact h
        · exact absurd h hrest
      subst hx
      rw [lookup_pathsFold_not_mem rc rest _ n hrest]
      simp only [pathsStep, hrc]
      exact lookup_setEntry_self _ _ _

theorem computePaths_lookup {σ : Type} (rc : RouteConfigs σ) (cfg : TabConfig) (n : String)
    (c : RouteConfig σ) (hmem : n ∈ computeOrder rc cfg) (hrc : lookupEntry rc n = some c) :
    lookupEntry (computePaths rc cfg) n = some (pathSegment c n) := by
  unfold computePaths
  exact lookup_pathsFold_mem rc _ _ n c hmem hrc

theorem findSome?_congr {α β : Type} {f g : α → Option β} :
    ∀ {l : List α}, (∀ x ∈ l, f x = g x) → l.findSome? f = l.findSome? g := by
  intro l
  induction l with
  | nil => intro _; rfl
  | cons x rest ih =>
    intro h
    rw [List.findSome?_cons, List.findSome?_cons, h x (List.mem_cons_self _ _)]
    rcases g x with _ | b
    · exact ih (fun y hy => h y (List.mem_cons_of_mem _ hy))
    · rfl

/-- The codec consults the table only through order, the paths of order
members, and the child-router registry. -/
theorem codec_congr {σ : Type} (T1 T2 : RouterTable σ)
    (horder : T1.order = T2.order)
    (hrouters : T1.tabRouters = T2.tabRouters)
    (hpaths : ∀ n ∈ T1.order, T1.paths n = T2.paths n) :
    (∀ st, getPathAndParamsForState T1 st = getPathAndParamsForState T2 st) ∧
    (∀ path params, getActionForPathAndParams T1 path params =
      getActionForPathAndParams T2 path params) := by
  constructor
  · intro st
    have ho2 : T2.order.get? st.index = T1.order.get? st.index := by rw [horder]
    rcases hroute : st.routes.get? st.index with _ | route
    · rcases ho : T1.order.get? st.index with _ | n <;> rw [ho] at ho2 <;>
        simp only [getPathAndParamsForState, hroute, ho, ho2]
    · rcases ho : T1.order.get? st.index with _ | n <;> rw [ho] at ho2
      · simp only [getPathAndParamsForState, hroute, ho, ho2]
      · simp only [getPathAndParamsForState, hroute, ho, ho2]
        rw [hpaths n (List.get?_mem ho), hrouters]
  · intro path params
    have h1 : (T1.order.findSome? (fun tabId =>
        if (jsSplit path).headD "" == T1.paths tabId then
          match T1.tabRouters tabId with
          | some tabRouter =>
            some ((navigateTo tabId).setAction
              (tabRouter.getActionForPathAndParams (jsJoin ((jsSplit path).drop 1)) params))
          | none =>
            match params with
            | some p => some ((navigateTo tabId).setParams (some p))
            | none => some (navigateTo tabId)
        else none)) = (T2.order.findSome? (fun tabId =>
        if (jsSplit path).headD "" == T2.paths tabId then
          match T2.tabRouters tabId with
          | some tabRouter =>
            some ((navigateTo tabId).setAction
              (tabRouter.getActionForPathAndParams (jsJoin ((jsSplit path).drop 1)) params))
          | none =>
            match params with
            | some p => some ((navigateTo tabId).setParams (some p))
            | none => some (navigateTo tabId)
        else none)) := by
      rw [← horder]
      refine findSome?_congr ?_
      intro tabId hmem
      rw [hpaths tabId hmem, hrouters]
    have h2 : (T1.order.findSome? (fun tabId =>
        (T1.tabRouters tabId).bind
          (fun tabRouter => tabRouter.getActionForPathAndParams path params))) =
        (T2.order.findSome? (fun tabId =>
        (T2.tabRouters tabId).bind
          (fun tabRouter => tabRouter.getActionForPathAndParams path params))) := by
      rw [← horder]
      refine findSome?_congr ?_
      intro tabId _
      rw [hrouters]
    simp only [getActionForPathAndParams, h1, h2]

/-- C10: the factory registers, for every tab of order, the segment
`routeConfig.path` whenever that is a string (the empty string included)
and the routeName otherwise, overwriting any caller-supplied
`config.paths` entry; consequently neither codec direction depends on
`config.paths`. -/
theorem pathSegmentsIgnoreConfigPaths :
    (∀ (σ : Type) (rc : RouteConfigs σ) (cfg : TabConfig) (n : String) (c : RouteConfig σ),
      n ∈ computeOrder rc cfg → lookupEntry rc n = some c →
      lookupEntry (computePaths rc cfg) n = some (pathSegment c n)) ∧
    (∀ (σ : Type) (rc : RouteConfigs σ) (cfg : TabConfig)
      (p1 p2 : Option (List (String × String))) (T1 T2 : RouterTable σ),
      makeTable rc { cfg with paths := p1 } = some T1 →
      makeTable rc { cfg with paths := p2 } = some T2 →
      (∀ st, getPathAndParamsForState T1 st = getPathAndParamsForState T2 st) ∧
      (∀ path params, getActionForPathAndParams T1 path params =
        getActionForPathAndParams T2 path params)) := by
  constructor
  · intro σ rc cfg n c hmem hrc
    exact computePaths_lookup rc cfg n c hmem hrc
  · intro σ rc cfg p1 p2 T1 T2 hT1 hT2
    obtain ⟨ho1, hp1, hr1, _, hpresent1⟩ := makeTable_fields hT1
    obtain ⟨ho2, hp2, hr2, _, _⟩ := makeTable_fields hT2
    have hordeq : computeOrder rc { cfg with paths := p1 } = computeOrder rc cfg := rfl
    have hordeq2 : computeOrder rc { cfg with paths := p2 } = computeOrder rc cfg := rfl
    have horder : T1.order = T2.order := by rw [ho1, ho2, hordeq, hordeq2]
    have hrouters : T1.tabRouters = T2.tabRouters := by
      rw [hr1, hr2, hordeq, hordeq2]
    have hpaths : ∀ n ∈ T1.order, T1.paths n = T2.paths n := by
      intro n hn
      have hn0 : n ∈ computeOrder rc cfg := by
        rw [ho1, hordeq] at hn
        exact hn
      obtain ⟨c, hc⟩ := Option.isSome_iff_exists.mp (hpresent1 n (by rw [hordeq]; exact hn0))
      have hl1 : lookupEntry (computePaths rc { cfg with paths := p1 }) n =
          some (pathSegment c n) :=
        computePaths_lookup rc _ n c (by rw [hordeq]; exact hn0) hc
      have hl2 : lookupEntry (computePaths rc { cfg with paths := p2 }) n =
          some (pathSegment c n) :=
        computePaths_lookup rc _ n c (by rw [hordeq2]; exact hn0) hc
      simp only [hp1, hp2]
      rw [hl1, hl2]
    exact codec_congr T1 T2 horder hrouters hpaths

def zzzStr : String := "ZZZ"

def cfgPathsA : TabConfig := { paths := some [(profileName, zzzStr)] }

def table10a : RouterTable Nat := (makeTable rc9 cfgPathsA).getD fallbackTable

/-- C10 witness: a caller-supplied paths entry for Profile is overridden
by the configured "profile" segment, and the encoder output does not
depend on it. -/
theorem pathSegmentsIgnoreConfigPathsWitness :
    profileName ∈ computeOrder rc9 cfgPathsA ∧
    lookupEntry rc9 profileName = some { path := some profilePath } ∧
    lookupEntry (computePaths rc9 cfgPathsA) profileName = some profilePath ∧
    getPathAndParamsForState table10a st9 = getPathAndParamsForState table9 st9 := by
  refine ⟨by decide, rfl, ?_, ?_⟩
  · exact pathSegmentsIgnoreConfigPaths.1 Nat rc9 cfgPathsA profileName
      { path := some profilePath } (by decide) rfl
  · exact (pathSegmentsIgnoreConfigPaths.2 Nat rc9 {} (some [(profileName, zzzStr)]) none
      table10a table9 rfl rfl).1 st9

end TabRouter
